import Mathlib

/-!
Verification of the 2D physics engine: fixed-step integrator, AABB collision
detection, impulse resolution.

Shallow embedding of the `PhysicsEngine` class. Numbers are modelled as exact
rationals (`ℚ`). The only irrational operation in the source, the
`Math.sqrt` used to normalise the collision normal, is modelled as an explicit
function parameter `sqrtFn : ℚ → ℚ`; theorems that depend on the normal being a
unit vector carry the hypothesis that `sqrtFn` returns the true square root at
the one point where the source evaluates it.

The mutable body registry (a JS `Set` of object references, iterated in
insertion order) is modelled as a `List PhysicsBody` of body states, with the
pairwise collision scan expressed as a fold over the index pairs `(i, j)`,
`i < j`, reading and writing the list at those indices exactly as the source
mutates the snapshot array. Registry membership itself (identity-based `add` /
`delete`) is modelled over an arbitrary type with decidable equality.
-/

structure Vec2 where
  x : ℚ
  y : ℚ
deriving DecidableEq, Repr

structure Bounds where
  width : ℚ
  height : ℚ
deriving DecidableEq, Repr

structure PhysicsBody where
  position : Vec2
  velocity : Vec2
  acceleration : Vec2
  mass : ℚ
  restitution : ℚ
  friction : ℚ
  isStatic : Bool
  bounds : Bounds
deriving DecidableEq, Repr

/-- Engine configuration: `gravity`, `timeScale`, `maxSteps`.
`maxSteps` is the maximum sub-step count per frame (a count, hence `ℕ`). -/
structure PhysicsEngine where
  gravity : Vec2
  timeScale : ℚ
  maxSteps : ℕ
deriving DecidableEq, Repr

/-- `fixedTimeStep = 1 / 60`. -/
def fixedTimeStep : ℚ := 1 / 60

/-- Number of loop iterations performed by `update`:
`steps = Math.min(maxSteps, Math.ceil(deltaTime * timeScale / fixedTimeStep))`,
and the `for` loop runs `max 0 steps` times. -/
def numSteps (e : PhysicsEngine) (deltaTime : ℚ) : ℕ :=
  (min (e.maxSteps : ℤ) ⌈deltaTime * e.timeScale / fixedTimeStep⌉).toNat

/-- The per-body integration of one sub-step: apply gravity to the
acceleration accumulator, integrate velocity, integrate position, reset the
accumulator; static bodies are skipped entirely. -/
def integrateBody (gravity : Vec2) (deltaTime : ℚ) (body : PhysicsBody) :
    PhysicsBody :=
  if body.isStatic then body
  else
    let ax := body.acceleration.x + gravity.x
    let ay := body.acceleration.y + gravity.y
    let vx := body.velocity.x + ax * deltaTime
    let vy := body.velocity.y + ay * deltaTime
    let px := body.position.x + vx * deltaTime
    let py := body.position.y + vy * deltaTime
    { body with
        position := ⟨px, py⟩
        velocity := ⟨vx, vy⟩
        acceleration := ⟨0, 0⟩ }

/-- AABB overlap test: fails only on one of the four strict separating
conditions. -/
def isColliding (bodyA bodyB : PhysicsBody) : Bool :=
  let aLeft := bodyA.position.x
  let aRight := bodyA.position.x + bodyA.bounds.width
  let aTop := bodyA.position.y
  let aBottom := bodyA.position.y + bodyA.bounds.height
  let bLeft := bodyB.position.x
  let bRight := bodyB.position.x + bodyB.bounds.width
  let bTop := bodyB.position.y
  let bBottom := bodyB.position.y + bodyB.bounds.height
  !(decide (aRight < bLeft) || decide (aLeft > bRight) ||
    decide (aBottom < bTop) || decide (aTop > bBottom))

/-- `dx`: x distance from A's center to B's center. -/
def centerDx (bodyA bodyB : PhysicsBody) : ℚ :=
  bodyB.position.x + bodyB.bounds.width / 2 -
    (bodyA.position.x + bodyA.bounds.width / 2)

/-- `dy`: y distance from A's center to B's center. -/
def centerDy (bodyA bodyB : PhysicsBody) : ℚ :=
  bodyB.position.y + bodyB.bounds.height / 2 -
    (bodyA.position.y + bodyA.bounds.height / 2)

/-- `nx = dx / Math.sqrt(dx*dx + dy*dy)`. -/
def normalX (sqrtFn : ℚ → ℚ) (bodyA bodyB : PhysicsBody) : ℚ :=
  centerDx bodyA bodyB /
    sqrtFn (centerDx bodyA bodyB * centerDx bodyA bodyB +
      centerDy bodyA bodyB * centerDy bodyA bodyB)

/-- `ny = dy / Math.sqrt(dx*dx + dy*dy)`. -/
def normalY (sqrtFn : ℚ → ℚ) (bodyA bodyB : PhysicsBody) : ℚ :=
  centerDy bodyA bodyB /
    sqrtFn (centerDx bodyA bodyB * centerDx bodyA bodyB +
      centerDy bodyA bodyB * centerDy bodyA bodyB)

/-- Relative velocity of B with respect to A, projected on the collision
normal. -/
def relVelNormal (sqrtFn : ℚ → ℚ) (bodyA bodyB : PhysicsBody) : ℚ :=
  (bodyB.velocity.x - bodyA.velocity.x) * normalX sqrtFn bodyA bodyB +
    (bodyB.velocity.y - bodyA.velocity.y) * normalY sqrtFn bodyA bodyB

/-- Positional-correction overlap:
`overlap = (A.width + B.width) / 2 - |dx|`. -/
def overlapX (bodyA bodyB : PhysicsBody) : ℚ :=
  (bodyA.bounds.width + bodyB.bounds.width) / 2 - |centerDx bodyA bodyB|

/-- Impulse-based resolution of one colliding pair, returning the updated
`(bodyA, bodyB)`. Mirrors the source: static-static pairs are skipped, a
separating pair (`rv > 0`) is skipped, the impulse is halved only when both
bodies are dynamic, static bodies never receive impulses or positional
correction. -/
def resolveCollision (sqrtFn : ℚ → ℚ) (bodyA bodyB : PhysicsBody) :
    PhysicsBody × PhysicsBody :=
  if bodyA.isStatic && bodyB.isStatic then (bodyA, bodyB)
  else
    let dx := centerDx bodyA bodyB
    let nx := normalX sqrtFn bodyA bodyB
    let ny := normalY sqrtFn bodyA bodyB
    let relativeVelocity := relVelNormal sqrtFn bodyA bodyB
    if relativeVelocity > 0 then (bodyA, bodyB)
    else
      let restitution := min bodyA.restitution bodyB.restitution
      let impulse0 := -(1 + restitution) * relativeVelocity
      let impulse :=
        if !bodyA.isStatic && !bodyB.isStatic then impulse0 / 2 else impulse0
      let a1 :=
        if bodyA.isStatic then bodyA
        else
          { bodyA with
              velocity := ⟨bodyA.velocity.x - impulse * nx,
                bodyA.velocity.y - impulse * ny⟩ }
      let b1 :=
        if bodyB.isStatic then bodyB
        else
          { bodyB with
              velocity := ⟨bodyB.velocity.x + impulse * nx,
                bodyB.velocity.y + impulse * ny⟩ }
      let overlap := (bodyA.bounds.width + bodyB.bounds.width) / 2 - |dx|
      if overlap > 0 then
        if !bodyA.isStatic && !bodyB.isStatic then
          ({ a1 with
              position := ⟨a1.position.x - overlap * nx / 2,
                a1.position.y - overlap * ny / 2⟩ },
           { b1 with
              position := ⟨b1.position.x + overlap * nx / 2,
                b1.position.y + overlap * ny / 2⟩ })
        else if !bodyA.isStatic then
          ({ a1 with
              position := ⟨a1.position.x - overlap * nx,
                a1.position.y - overlap * ny⟩ }, b1)
        else if !bodyB.isStatic then
          (a1,
           { b1 with
              position := ⟨b1.position.x + overlap * nx,
                b1.position.y + overlap * ny⟩ })
        else (a1, b1)
      else (a1, b1)

/-- One iteration of the pairwise scan at index pair `(i, j)`: read the current
bodies at `i` and `j`, and if they collide write back the resolved pair. -/
def resolvePair (sqrtFn : ℚ → ℚ) (bodies : List PhysicsBody) (i j : ℕ) :
    List PhysicsBody :=
  match bodies[i]?, bodies[j]? with
  | some bodyA, some bodyB =>
      if isColliding bodyA bodyB then
        (bodies.set i (resolveCollision sqrtFn bodyA bodyB).1).set j
          (resolveCollision sqrtFn bodyA bodyB).2
      else bodies
  | _, _ => bodies

/-- The index pairs `(i, j)` with `i < j < n`, in the order of the source's
nested loops. -/
def pairIndices (n : ℕ) : List (ℕ × ℕ) :=
  ((List.range n).map fun i =>
    ((List.range n).filter fun j => decide (i < j)).map fun j => (i, j)).flatten

/-- The O(n²) pairwise collision scan over a snapshot of the registry. -/
def checkCollisions (sqrtFn : ℚ → ℚ) (bodies : List PhysicsBody) :
    List PhysicsBody :=
  (pairIndices bodies.length).foldl
    (fun bs p => resolvePair sqrtFn bs p.1 p.2) bodies

/-- One physics sub-step: integrate every body, then resolve all pairwise
collisions. -/
def step (sqrtFn : ℚ → ℚ) (e : PhysicsEngine) (deltaTime : ℚ)
    (bodies : List PhysicsBody) : List PhysicsBody :=
  checkCollisions sqrtFn (bodies.map (integrateBody e.gravity deltaTime))

/-- The per-frame entry point: run `numSteps` sub-steps, each with the
constant `fixedTimeStep` duration. -/
def update (sqrtFn : ℚ → ℚ) (e : PhysicsEngine) (deltaTime : ℚ)
    (bodies : List PhysicsBody) : List PhysicsBody :=
  (step sqrtFn e fixedTimeStep)^[numSteps e deltaTime] bodies

/-- A sequence of `update` calls, each with its own engine config and frame
delta. -/
def runUpdates (sqrtFn : ℚ → ℚ) (calls : List (PhysicsEngine × ℚ))
    (bodies : List PhysicsBody) : List PhysicsBody :=
  calls.foldl (fun bs c => update sqrtFn c.1 c.2 bs) bodies

/-- `setTimeScale(scale)` stores `Math.max(0, scale)`. -/
def setTimeScale (e : PhysicsEngine) (scale : ℚ) : PhysicsEngine :=
  { e with timeScale := max 0 scale }

/-- `addBody`: JS `Set.add` of an object reference — a no-op when the body is
already a member, otherwise appended in insertion order. -/
def addBody {α : Type} [DecidableEq α] (bodies : List α) (body : α) : List α :=
  if body ∈ bodies then bodies else bodies ++ [body]

/-- `removeBody`: JS `Set.delete` of an object reference — removes the body's
(unique) occurrence, a no-op when absent. -/
def removeBody {α : Type} [DecidableEq α] (bodies : List α) (body : α) :
    List α :=
  bodies.erase body

/-- A fully populated dynamic body with the given top-left position and box
size, at rest, used for concrete test inputs. -/
def mkBox (px py w h : ℚ) : PhysicsBody :=
  { position := ⟨px, py⟩
    velocity := ⟨0, 0⟩
    acceleration := ⟨0, 0⟩
    mass := 1
    restitution := 0
    friction := 0
    isStatic := false
    bounds := ⟨w, h⟩ }

theorem checkCollisions_singleton (sqrtFn : ℚ → ℚ) (body : PhysicsBody) :
    checkCollisions sqrtFn [body] = [body] := rfl

/-- C2: a single dynamic body with zero initial velocity and acceleration,
alone under gravity `(0, g)`, after one sub-step has
`velocity = (0, g * fixedStep)`,
`position = (x₀, y₀ + g * fixedStep²)` (velocity is integrated before
position, so the fresh velocity is used), and its acceleration accumulator is
reset to `(0, 0)`. -/
theorem single_body_gravity_step (sqrtFn : ℚ → ℚ) (e : PhysicsEngine)
    (g : ℚ) (body : PhysicsBody) (hg : e.gravity = ⟨0, g⟩)
    (hst : body.isStatic = false) (hv : body.velocity = ⟨0, 0⟩)
    (ha : body.acceleration = ⟨0, 0⟩) :
    step sqrtFn e fixedTimeStep [body] =
      [{ body with
          position := ⟨body.position.x,
            body.position.y + g * fixedTimeStep * fixedTimeStep⟩
          velocity := ⟨0, g * fixedTimeStep⟩
          acceleration := ⟨0, 0⟩ }] := by
  show checkCollisions sqrtFn [integrateBody e.gravity fixedTimeStep body] = _
  rw [checkCollisions_singleton]
  unfold integrateBody
  rw [hg, hst, hv, ha]
  simp

/-- C2 witness: under gravity `(0, 60)` one sub-step gives the body velocity
`(0, 1)` and moves it down by `1/60`. -/
theorem single_body_gravity_step_witness :
    step (fun _ => 1) ⟨⟨0, 60⟩, 1, 3⟩ fixedTimeStep [mkBox 0 0 10 10] =
      [{ mkBox 0 0 10 10 with
          position := ⟨0, 1/60⟩
          velocity := ⟨0, 1⟩
          acceleration := ⟨0, 0⟩ }] := by
  have h := single_body_gravity_step (fun _ => 1) ⟨⟨0, 60⟩, 1, 3⟩ 60
    (mkBox 0 0 10 10) rfl rfl rfl rfl
  rw [h]
  norm_num [mkBox, fixedTimeStep]

theorem integrateBody_static (gravity : Vec2) (deltaTime : ℚ)
    (body : PhysicsBody) (h : body.isStatic = true) :
    integrateBody gravity deltaTime body = body := by
  unfold integrateBody
  rw [h]
  rfl

theorem resolveCollision_static_fst (sqrtFn : ℚ → ℚ)
    (bodyA bodyB : PhysicsBody) (h : bodyA.isStatic = true) :
    (resolveCollision sqrtFn bodyA bodyB).1 = bodyA := by
  unfold resolveCollision
  cases hb : bodyB.isStatic <;> simp [h, hb]
  split
  · rfl
  · split <;> rfl

theorem resolveCollision_static_snd (sqrtFn : ℚ → ℚ)
    (bodyA bodyB : PhysicsBody) (h : bodyB.isStatic = true) :
    (resolveCollision sqrtFn bodyA bodyB).2 = bodyB := by
  unfold resolveCollision
  cases ha : bodyA.isStatic <;> simp [h, ha]
  split
  · rfl
  · split <;> rfl

theorem resolvePair_length (sqrtFn : ℚ → ℚ) (bs : List PhysicsBody)
    (i j : ℕ) : (resolvePair sqrtFn bs i j).length = bs.length := by
  unfold resolvePair
  split
  · split
    · simp
    · rfl
  · rfl

theorem resolvePair_getElem?_static (sqrtFn : ℚ → ℚ)
    (bs : List PhysicsBody) (i j k : ℕ) (b0 : PhysicsBody)
    (hk : bs[k]? = some b0) (hst : b0.isStatic = true) :
    (resolvePair sqrtFn bs i j)[k]? = some b0 := by
  have hklen : k < bs.length := by
    by_contra hlen
    rw [List.getElem?_eq_none (le_of_not_lt hlen)] at hk
    exact Option.noConfusion hk
  unfold resolvePair
  split
  · rename_i bodyA bodyB hi hj
    split
    · by_cases hjk : j = k
      · subst hjk
        rw [List.getElem?_set_self (by simpa using hklen)]
        rw [hk] at hj
        obtain rfl : b0 = bodyB := by injection hj
        rw [resolveCollision_static_snd sqrtFn bodyA b0 hst]
      · rw [List.getElem?_set_ne hjk]
        by_cases hik : i = k
        · subst hik
          rw [List.getElem?_set_self hklen]
          rw [hk] at hi
          obtain rfl : b0 = bodyA := by injection hi
          rw [resolveCollision_static_fst sqrtFn b0 bodyB hst]
        · rw [List.getElem?_set_ne hik]
          exact hk
    · exact hk
  · exact hk

theorem foldPairs_getElem?_static (sqrtFn : ℚ → ℚ) (ps : List (ℕ × ℕ))
    (bs : List PhysicsBody) (k : ℕ) (b0 : PhysicsBody)
    (hk : bs[k]? = some b0) (hst : b0.isStatic = true) :
    (ps.foldl (fun bs' p => resolvePair sqrtFn bs' p.1 p.2) bs)[k]? =
      some b0 := by
  induction ps generalizing bs with
  | nil => exact hk
  | cons p ps ih =>
      exact ih (resolvePair sqrtFn bs p.1 p.2)
        (resolvePair_getElem?_static sqrtFn bs p.1 p.2 k b0 hk hst)

theorem step_getElem?_static (sqrtFn : ℚ → ℚ) (e : PhysicsEngine)
    (deltaTime : ℚ) (bs : List PhysicsBody) (k : ℕ) (b0 : PhysicsBody)
    (hk : bs[k]? = some b0) (hst : b0.isStatic = true) :
    (step sqrtFn e deltaTime bs)[k]? = some b0 := by
  unfold step checkCollisions
  refine foldPairs_getElem?_static sqrtFn _ _ k b0 ?_ hst
  rw [List.getElem?_map, hk, Option.map_some',
    integrateBody_static e.gravity deltaTime b0 hst]

theorem update_getElem?_static (sqrtFn : ℚ → ℚ) (e : PhysicsEngine)
    (deltaTime : ℚ) (bs : List PhysicsBody) (k : ℕ) (b0 : PhysicsBody)
    (hk : bs[k]? = some b0) (hst : b0.isStatic = true) :
    (update sqrtFn e deltaTime bs)[k]? = some b0 := by
  unfold update
  generalize numSteps e deltaTime = n
  induction n generalizing bs with
  | zero => exact hk
  | succ n ih =>
      rw [Function.iterate_succ_apply]
      exact ih (step sqrtFn e fixedTimeStep bs)
        (step_getElem?_static sqrtFn e fixedTimeStep bs k b0 hk hst)

/-- C3: a body registered with `isStatic = true` is never mutated by the
engine: the registry slot holding it still holds the identical body record —
in particular the same `position` and `velocity` — after any number of
`update` calls with arbitrary gravity, time scale, frame deltas and other
(possibly colliding) bodies; static bodies are skipped by integration and
never receive impulses or positional correction. -/
theorem static_body_invariant (sqrtFn : ℚ → ℚ)
    (calls : List (PhysicsEngine × ℚ)) (bodies : List PhysicsBody) (i : ℕ)
    (b0 : PhysicsBody) (hk : bodies[i]? = some b0)
    (hst : b0.isStatic = true) :
    (runUpdates sqrtFn calls bodies)[i]? = some b0 := by
  induction calls generalizing bodies with
  | nil => exact hk
  | cons c cs ih =>
      exact ih (update sqrtFn c.1 c.2 bodies)
        (update_getElem?_static sqrtFn c.1 c.2 bodies i b0 hk hst)

/-- C3 witness: a static floor under a falling, colliding dynamic box is
bit-identical after two frames. -/
theorem static_body_invariant_witness :
    (runUpdates (fun _ => 1)
      [(⟨⟨0, 60⟩, 1, 3⟩, 1/60), (⟨⟨0, 60⟩, 1, 3⟩, 1/60)]
      [{ mkBox 0 5 10 10 with isStatic := true }, mkBox 0 0 10 10])[0]? =
      some { mkBox 0 5 10 10 with isStatic := true } :=
  static_body_invariant (fun _ => 1) _ _ 0
    { mkBox 0 5 10 10 with isStatic := true } rfl rfl

/-- C4: the AABB test reports no collision iff one of the four strict
separating conditions holds (edges at `position` plus `bounds`), so touching
edges count as colliding; boxes `[0,0,10,10]` and `[5,5,10,10]` collide,
`[0,0,10,10]` and `[11,0,10,10]` do not, and the touching pair `[0,0,10,10]`,
`[10,0,10,10]` collides. -/
theorem isColliding_iff_separating :
    (∀ bodyA bodyB : PhysicsBody,
      isColliding bodyA bodyB = false ↔
        (bodyA.position.x + bodyA.bounds.width < bodyB.position.x ∨
         bodyA.position.x > bodyB.position.x + bodyB.bounds.width ∨
         bodyA.position.y + bodyA.bounds.height < bodyB.position.y ∨
         bodyA.position.y > bodyB.position.y + bodyB.bounds.height)) ∧
    isColliding (mkBox 0 0 10 10) (mkBox 5 5 10 10) = true ∧
    isColliding (mkBox 0 0 10 10) (mkBox 11 0 10 10) = false ∧
    isColliding (mkBox 0 0 10 10) (mkBox 10 0 10 10) = true := by
  refine ⟨fun bodyA bodyB => ?_,
    by norm_num [isColliding, mkBox],
    by norm_num [isColliding, mkBox],
    by norm_num [isColliding, mkBox]⟩
  unfold isColliding
  simp only [Bool.not_eq_false', Bool.or_eq_true, decide_eq_true_eq]
  tauto

/-- C4 witness: the separating characterisation applied to a concrete
separated pair. -/
theorem isColliding_iff_separating_witness :
    isColliding (mkBox 0 0 10 10) (mkBox 20 20 5 5) = false :=
  (isColliding_iff_separating.1 (mkBox 0 0 10 10) (mkBox 20 20 5 5)).mpr
    (by norm_num [mkBox])

theorem numSteps_eq_min_natCeil (e : PhysicsEngine) (deltaTime : ℚ) :
    numSteps e deltaTime =
      min e.maxSteps ⌈deltaTime * e.timeScale / fixedTimeStep⌉₊ := by
  unfold numSteps
  rcases le_total (e.maxSteps : ℤ) ⌈deltaTime * e.timeScale / fixedTimeStep⌉
    with h | h
  · rw [min_eq_left h, Int.toNat_natCast,
      min_eq_left (by rw [← Int.ceil_toNat]; exact Int.toNat_le_toNat h)]
  · have h2 : ⌈deltaTime * e.timeScale / fixedTimeStep⌉₊ ≤ e.maxSteps := by
      rw [← Int.ceil_toNat]
      simpa using Int.toNat_le_toNat h
    rw [min_eq_right h, Int.ceil_toNat, min_eq_right h2]

/-- C1: for `deltaTime ≥ 0` (and the non-negative `timeScale` the setter
guarantees), `update` runs exactly
`min(maxSteps, ceil(deltaTime * timeScale / fixedStep))` sub-steps, each
invoked with the constant `fixedTimeStep` duration; for
`deltaTime ≤ maxSteps * fixedStep / timeScale` (with `timeScale > 0`) the
count equals `ceil(deltaTime * timeScale / fixedStep)`, and for larger
`deltaTime` it is clamped to `maxSteps`. -/
theorem update_step_count (sqrtFn : ℚ → ℚ) (e : PhysicsEngine)
    (deltaTime : ℚ) (bodies : List PhysicsBody)
    (hdt : 0 ≤ deltaTime) (hts : 0 ≤ e.timeScale) :
    update sqrtFn e deltaTime bodies =
      (step sqrtFn e fixedTimeStep)^[numSteps e deltaTime] bodies ∧
    (numSteps e deltaTime : ℤ) =
      min (e.maxSteps : ℤ) ⌈deltaTime * e.timeScale / fixedTimeStep⌉ ∧
    (0 < e.timeScale →
      deltaTime ≤ (e.maxSteps : ℚ) * fixedTimeStep / e.timeScale →
      (numSteps e deltaTime : ℤ) =
        ⌈deltaTime * e.timeScale / fixedTimeStep⌉) ∧
    (0 < e.timeScale →
      (e.maxSteps : ℚ) * fixedTimeStep / e.timeScale < deltaTime →
      numSteps e deltaTime = e.maxSteps) := by
  have hfs : (0 : ℚ) < fixedTimeStep := by norm_num [fixedTimeStep]
  have hx : 0 ≤ deltaTime * e.timeScale / fixedTimeStep :=
    div_nonneg (mul_nonneg hdt hts) hfs.le
  have hcast : (numSteps e deltaTime : ℤ) =
      min (e.maxSteps : ℤ) ⌈deltaTime * e.timeScale / fixedTimeStep⌉ := by
    unfold numSteps
    exact Int.toNat_of_nonneg
      (le_min (Int.natCast_nonneg _) (Int.ceil_nonneg hx))
  refine ⟨rfl, hcast, fun hts' hsmall => ?_, fun hts' hlarge => ?_⟩
  · rw [hcast]
    refine min_eq_right (Int.ceil_le.mpr ?_)
    push_cast
    rw [div_le_iff hfs]
    calc deltaTime * e.timeScale ≤
        (e.maxSteps : ℚ) * fixedTimeStep / e.timeScale * e.timeScale :=
          mul_le_mul_of_nonneg_right hsmall hts
      _ = (e.maxSteps : ℚ) * fixedTimeStep := div_mul_cancel₀ _ hts'.ne'
  · have hm : (e.maxSteps : ℤ) < ⌈deltaTime * e.timeScale / fixedTimeStep⌉ := by
      refine Int.lt_ceil.mpr ?_
      push_cast
      rw [lt_div_iff hfs, ← div_mul_cancel₀ ((e.maxSteps : ℚ) * fixedTimeStep)
        hts'.ne']
      exact mul_lt_mul_of_pos_right hlarge hts'
    have := hcast
    rw [min_eq_left hm.le] at this
    exact_mod_cast this

/-- C1 witness: with `timeScale = 1`, `maxSteps = 3`, the in-range frame
`deltaTime = 1/30` yields exactly `⌈(1/30)/(1/60)⌉ = 2` sub-steps, and the
lagging frame `deltaTime = 1` is clamped to `3`. -/
theorem update_step_count_witness :
    (numSteps ⟨⟨0, 981/100⟩, 1, 3⟩ (1/30) : ℤ) = 2 ∧
    numSteps ⟨⟨0, 981/100⟩, 1, 3⟩ 1 = 3 := by
  constructor
  · have h := update_step_count (fun _ => 1) ⟨⟨0, 981/100⟩, 1, 3⟩ (1/30) []
      (by norm_num) (by norm_num)
    rw [h.2.2.1 (by norm_num) (by norm_num [fixedTimeStep])]
    norm_num [fixedTimeStep]
  · have h := update_step_count (fun _ => 1) ⟨⟨0, 981/100⟩, 1, 3⟩ 1 []
      (by norm_num) (by norm_num)
    exact h.2.2.2 (by norm_num) (by norm_num [fixedTimeStep])

/-- C8: with `timeScale = 0`, every `update` runs zero sub-steps and the
whole body list — positions, velocities, accelerations — is unchanged across
any number of `update` calls. -/
theorem timeScale_zero_frozen (sqrtFn : ℚ → ℚ) (e : PhysicsEngine)
    (deltaTime : ℚ) (bodies : List PhysicsBody)
    (calls : List (PhysicsEngine × ℚ))
    (hts : e.timeScale = 0) (hcalls : ∀ c ∈ calls, (c.1).timeScale = 0) :
    numSteps e deltaTime = 0 ∧
    update sqrtFn e deltaTime bodies = bodies ∧
    runUpdates sqrtFn calls bodies = bodies := by
  have hsteps : ∀ (e' : PhysicsEngine) (dt' : ℚ), e'.timeScale = 0 →
      numSteps e' dt' = 0 := by
    intro e' dt' h
    unfold numSteps
    rw [h]
    simp
  have hupd : ∀ (e' : PhysicsEngine) (dt' : ℚ) (bs : List PhysicsBody),
      e'.timeScale = 0 → update sqrtFn e' dt' bs = bs := by
    intro e' dt' bs h
    unfold update
    rw [hsteps e' dt' h]
    rfl
  have hrun : ∀ (cs : List (PhysicsEngine × ℚ)),
      (∀ c ∈ cs, (c.1).timeScale = 0) →
      ∀ bs : List PhysicsBody, runUpdates sqrtFn cs bs = bs := by
    intro cs
    induction cs with
    | nil => intro _ bs; rfl
    | cons c cs ih =>
        intro h bs
        show runUpdates sqrtFn cs (update sqrtFn c.1 c.2 bs) = bs
        rw [hupd c.1 c.2 bs (h c (by simp))]
        exact ih (fun c' hc' => h c' (by simp [hc'])) bs
  exact ⟨hsteps e deltaTime hts, hupd e deltaTime bodies hts,
    hrun calls hcalls bodies⟩

/-- C8 witness: a frozen engine leaves a concrete body list untouched. -/
theorem timeScale_zero_frozen_witness :
    numSteps ⟨⟨0, 981/100⟩, 0, 3⟩ 5 = 0 ∧
    update (fun _ => 1) ⟨⟨0, 981/100⟩, 0, 3⟩ 5 [mkBox 0 0 1 1] =
      [mkBox 0 0 1 1] := by
  have h := timeScale_zero_frozen (fun _ => 1) ⟨⟨0, 981/100⟩, 0, 3⟩ 5
    [mkBox 0 0 1 1] [] rfl (by simp)
  exact ⟨h.1, h.2.1⟩

/-- The impulse the resolver applies when both bodies are dynamic: the full
impulse `-(1 + min(A.restitution, B.restitution)) * rv`, halved. -/
def impulseEvenSplit (sqrtFn : ℚ → ℚ) (bodyA bodyB : PhysicsBody) : ℚ :=
  -(1 + min bodyA.restitution bodyB.restitution) *
    relVelNormal sqrtFn bodyA bodyB / 2

/-- The component of a velocity vector along the pair's collision normal. -/
def velAlongNormal (sqrtFn : ℚ → ℚ) (bodyA bodyB : PhysicsBody) (v : Vec2) :
    ℚ :=
  v.x * normalX sqrtFn bodyA bodyB + v.y * normalY sqrtFn bodyA bodyB

theorem resolveCollision_dyn_velocity (sqrtFn : ℚ → ℚ)
    (bodyA bodyB : PhysicsBody)
    (hA : bodyA.isStatic = false) (hB : bodyB.isStatic = false)
    (hrv : relVelNormal sqrtFn bodyA bodyB ≤ 0) :
    (resolveCollision sqrtFn bodyA bodyB).1.velocity =
      ⟨bodyA.velocity.x -
         impulseEvenSplit sqrtFn bodyA bodyB * normalX sqrtFn bodyA bodyB,
       bodyA.velocity.y -
         impulseEvenSplit sqrtFn bodyA bodyB * normalY sqrtFn bodyA bodyB⟩ ∧
    (resolveCollision sqrtFn bodyA bodyB).2.velocity =
      ⟨bodyB.velocity.x +
         impulseEvenSplit sqrtFn bodyA bodyB * normalX sqrtFn bodyA bodyB,
       bodyB.velocity.y +
         impulseEvenSplit sqrtFn bodyA bodyB * normalY sqrtFn bodyA bodyB⟩ := by
  have hnlt : ¬ (relVelNormal sqrtFn bodyA bodyB > 0) := not_lt.mpr hrv
  unfold resolveCollision
  simp only [hA, hB, hnlt, Bool.false_and, Bool.and_false, Bool.and_self,
    Bool.not_false, Bool.false_eq_true, if_false, if_true, ite_true,
    ite_false, impulseEvenSplit]
  constructor <;> (split <;> simp [Vec2.mk.injEq])

/-- C5: for a colliding dynamic-dynamic pair approaching along the collision
normal (`rv < 0`), the resolver subtracts the halved, mass-independent
impulse `-(1 + min(A.restitution, B.restitution)) * rv / 2` along the normal
from A's velocity and adds it to B's; when the normal is a unit vector, with
restitution 1 the two bodies exchange their normal-direction velocity
components, and with restitution 0 they end with equal normal-direction
velocity. -/
theorem impulse_even_split (sqrtFn : ℚ → ℚ) (bodyA bodyB : PhysicsBody)
    (hA : bodyA.isStatic = false) (hB : bodyB.isStatic = false)
    (hcol : isColliding bodyA bodyB = true)
    (hrv : relVelNormal sqrtFn bodyA bodyB < 0) :
    (resolveCollision sqrtFn bodyA bodyB).1.velocity =
      ⟨bodyA.velocity.x -
         impulseEvenSplit sqrtFn bodyA bodyB * normalX sqrtFn bodyA bodyB,
       bodyA.velocity.y -
         impulseEvenSplit sqrtFn bodyA bodyB * normalY sqrtFn bodyA bodyB⟩ ∧
    (resolveCollision sqrtFn bodyA bodyB).2.velocity =
      ⟨bodyB.velocity.x +
         impulseEvenSplit sqrtFn bodyA bodyB * normalX sqrtFn bodyA bodyB,
       bodyB.velocity.y +
         impulseEvenSplit sqrtFn bodyA bodyB * normalY sqrtFn bodyA bodyB⟩ ∧
    (normalX sqrtFn bodyA bodyB ^ 2 + normalY sqrtFn bodyA bodyB ^ 2 = 1 →
      (min bodyA.restitution bodyB.restitution = 1 →
        velAlongNormal sqrtFn bodyA bodyB
            (resolveCollision sqrtFn bodyA bodyB).1.velocity =
          velAlongNormal sqrtFn bodyA bodyB bodyB.velocity ∧
        velAlongNormal sqrtFn bodyA bodyB
            (resolveCollision sqrtFn bodyA bodyB).2.velocity =
          velAlongNormal sqrtFn bodyA bodyB bodyA.velocity) ∧
      (min bodyA.restitution bodyB.restitution = 0 →
        velAlongNormal sqrtFn bodyA bodyB
            (resolveCollision sqrtFn bodyA bodyB).1.velocity =
          velAlongNormal sqrtFn bodyA bodyB
            (resolveCollision sqrtFn bodyA bodyB).2.velocity)) := by
  obtain ⟨h1, h2⟩ :=
    resolveCollision_dyn_velocity sqrtFn bodyA bodyB hA hB hrv.le
  refine ⟨h1, h2, fun hunit => ⟨fun hrest => ⟨?_, ?_⟩, fun hrest => ?_⟩⟩
  · rw [h1]
    simp only [velAlongNormal, impulseEvenSplit, relVelNormal, hrest]
    linear_combination
      (((bodyB.velocity.x - bodyA.velocity.x) * normalX sqrtFn bodyA bodyB +
        (bodyB.velocity.y - bodyA.velocity.y) * normalY sqrtFn bodyA bodyB)) *
        hunit
  · rw [h2]
    simp only [velAlongNormal, impulseEvenSplit, relVelNormal, hrest]
    linear_combination
      (-((bodyB.velocity.x - bodyA.velocity.x) * normalX sqrtFn bodyA bodyB +
        (bodyB.velocity.y - bodyA.velocity.y) * normalY sqrtFn bodyA bodyB)) *
        hunit
  · rw [h1, h2]
    simp only [velAlongNormal, impulseEvenSplit, relVelNormal, hrest]
    linear_combination
      (((bodyB.velocity.x - bodyA.velocity.x) * normalX sqrtFn bodyA bodyB +
        (bodyB.velocity.y - bodyA.velocity.y) * normalY sqrtFn bodyA bodyB)) *
        hunit

/-- The left box of the concrete head-on pair: at the origin, moving right at
speed 1, restitution 1. -/
def headOnA : PhysicsBody :=
  { mkBox 0 0 10 10 with velocity := ⟨1, 0⟩, restitution := 1 }

/-- The right box of the concrete head-on pair: overlapping the left one,
moving left at speed 1, restitution 1. -/
def headOnB : PhysicsBody :=
  { mkBox 8 0 10 10 with velocity := ⟨-1, 0⟩, restitution := 1 }

/-- C5 witness: equal boxes approaching head-on along x with restitution 1
exchange their velocities. -/
theorem impulse_even_split_witness :
    (resolveCollision (fun _ => 8) headOnA headOnB).1.velocity = ⟨-1, 0⟩ ∧
    (resolveCollision (fun _ => 8) headOnA headOnB).2.velocity = ⟨1, 0⟩ := by
  have h := impulse_even_split (fun _ => 8) headOnA headOnB
    rfl rfl (by norm_num [isColliding, mkBox, headOnA, headOnB])
    (by norm_num [relVelNormal, normalX, normalY, centerDx, centerDy, mkBox,
      headOnA, headOnB])
  refine ⟨h.1.trans ?_, h.2.1.trans ?_⟩ <;>
    norm_num [impulseEvenSplit, relVelNormal, normalX, normalY, centerDx,
      centerDy, mkBox, headOnA, headOnB, Vec2.mk.injEq]

/-- C6: positional correction uses only the widths and the x center
distance: with `overlap = (A.width + B.width)/2 - |dx|`, when `overlap > 0` a
dynamic-dynamic pair is displaced by `overlap/2` each in opposite directions
along the normal, a dynamic body paired with a static one is displaced by the
full `overlap` (the static body unmoved), and when `overlap ≤ 0` no position
changes. -/
theorem positional_correction (sqrtFn : ℚ → ℚ) (bodyA bodyB : PhysicsBody)
    (hcol : isColliding bodyA bodyB = true)
    (hrv : relVelNormal sqrtFn bodyA bodyB ≤ 0) :
    (0 < overlapX bodyA bodyB → bodyA.isStatic = false →
      bodyB.isStatic = false →
      (resolveCollision sqrtFn bodyA bodyB).1.position =
        ⟨bodyA.position.x -
           overlapX bodyA bodyB * normalX sqrtFn bodyA bodyB / 2,
         bodyA.position.y -
           overlapX bodyA bodyB * normalY sqrtFn bodyA bodyB / 2⟩ ∧
      (resolveCollision sqrtFn bodyA bodyB).2.position =
        ⟨bodyB.position.x +
           overlapX bodyA bodyB * normalX sqrtFn bodyA bodyB / 2,
         bodyB.position.y +
           overlapX bodyA bodyB * normalY sqrtFn bodyA bodyB / 2⟩) ∧
    (0 < overlapX bodyA bodyB → bodyA.isStatic = false →
      bodyB.isStatic = true →
      (resolveCollision sqrtFn bodyA bodyB).1.position =
        ⟨bodyA.position.x - overlapX bodyA bodyB * normalX sqrtFn bodyA bodyB,
         bodyA.position.y -
           overlapX bodyA bodyB * normalY sqrtFn bodyA bodyB⟩ ∧
      (resolveCollision sqrtFn bodyA bodyB).2.position = bodyB.position) ∧
    (0 < overlapX bodyA bodyB → bodyA.isStatic = true →
      bodyB.isStatic = false →
      (resolveCollision sqrtFn bodyA bodyB).1.position = bodyA.position ∧
      (resolveCollision sqrtFn bodyA bodyB).2.position =
        ⟨bodyB.position.x + overlapX bodyA bodyB * normalX sqrtFn bodyA bodyB,
         bodyB.position.y +
           overlapX bodyA bodyB * normalY sqrtFn bodyA bodyB⟩) ∧
    (overlapX bodyA bodyB ≤ 0 →
      (bodyA.isStatic && bodyB.isStatic) = false →
      (resolveCollision sqrtFn bodyA bodyB).1.position = bodyA.position ∧
      (resolveCollision sqrtFn bodyA bodyB).2.position = bodyB.position) := by
  have hnlt : ¬ (relVelNormal sqrtFn bodyA bodyB > 0) := not_lt.mpr hrv
  refine ⟨fun hov hA hB => ?_, fun hov hA hB => ?_, fun hov hA hB => ?_,
    fun hov hns => ?_⟩
  · have hov' : |centerDx bodyA bodyB| <
        (bodyA.bounds.width + bodyB.bounds.width) / 2 := by
      unfold overlapX at hov; linarith
    unfold resolveCollision
    simp only [hA, hB, hnlt, Bool.false_and, Bool.and_false, Bool.and_self,
      Bool.not_false, Bool.false_eq_true, if_false, if_true, ite_true,
      ite_false]
    simp [hov', overlapX, Vec2.mk.injEq]
  · have hov' : |centerDx bodyA bodyB| <
        (bodyA.bounds.width + bodyB.bounds.width) / 2 := by
      unfold overlapX at hov; linarith
    unfold resolveCollision
    simp only [hA, hB, hnlt, Bool.false_and, Bool.and_false, Bool.and_true,
      Bool.true_and, Bool.not_false, Bool.not_true, Bool.false_eq_true,
      if_false, if_true, ite_true, ite_false]
    simp [hov', overlapX, Vec2.mk.injEq]
  · have hov' : |centerDx bodyA bodyB| <
        (bodyA.bounds.width + bodyB.bounds.width) / 2 := by
      unfold overlapX at hov; linarith
    unfold resolveCollision
    simp only [hA, hB, hnlt, Bool.false_and, Bool.and_false, Bool.and_true,
      Bool.true_and, Bool.not_false, Bool.not_true, Bool.false_eq_true,
      if_false, if_true, ite_true, ite_false]
    simp [hov', overlapX, Vec2.mk.injEq]
  · have hov' : ¬ (|centerDx bodyA bodyB| <
        (bodyA.bounds.width + bodyB.bounds.width) / 2) := by
      unfold overlapX at hov; push_neg; linarith
    rcases Bool.and_eq_false_iff.mp hns with hA | hB
    · unfold resolveCollision
      simp only [hA, Bool.false_and, Bool.not_false, Bool.false_eq_true,
        if_false, ite_false]
      cases hB' : bodyB.isStatic <;> simp [hA, hB', hnlt, hov', overlapX]
    · unfold resolveCollision
      simp only [hB, Bool.and_false, Bool.not_false, Bool.false_eq_true,
        if_false, ite_false]
      cases hA' : bodyA.isStatic <;> simp [hA', hB, hnlt, hov', overlapX]

/-- C6 witness: a dynamic box overlapping a static one by 2 is pushed out by
the full overlap in one resolution pass, the static box unmoved. -/
theorem positional_correction_witness :
    (resolveCollision (fun _ => 8)
        { mkBox 0 0 10 10 with velocity := ⟨1, 0⟩ }
        { mkBox 8 0 10 10 with isStatic := true }).1.position = ⟨-2, 0⟩ ∧
    (resolveCollision (fun _ => 8)
        { mkBox 0 0 10 10 with velocity := ⟨1, 0⟩ }
        { mkBox 8 0 10 10 with isStatic := true }).2.position = ⟨8, 0⟩ := by
  have h := (positional_correction (fun _ => 8)
    { mkBox 0 0 10 10 with velocity := ⟨1, 0⟩ }
    { mkBox 8 0 10 10 with isStatic := true }
    (by norm_num [isColliding, mkBox])
    (by norm_num [relVelNormal, normalX, normalY, centerDx, centerDy,
      mkBox])).2.1
    (by norm_num [overlapX, centerDx, mkBox]) rfl rfl
  refine ⟨h.1.trans ?_, h.2.trans rfl⟩
  norm_num [overlapX, normalX, normalY, centerDx, centerDy, mkBox,
    Vec2.mk.injEq]

/-- C7: a colliding pair whose relative normal velocity is positive (the
bodies are separating) is skipped entirely by the resolver: both bodies come
back unchanged, with no impulse and no positional correction. -/
theorem resolveCollision_separating (sqrtFn : ℚ → ℚ)
    (bodyA bodyB : PhysicsBody)
    (hcol : isColliding bodyA bodyB = true)
    (hrv : relVelNormal sqrtFn bodyA bodyB > 0) :
    resolveCollision sqrtFn bodyA bodyB = (bodyA, bodyB) := by
  unfold resolveCollision
  split
  · rfl
  · simp only [if_pos hrv]

/-- C7 witness: two overlapping boxes moving apart are left untouched. -/
theorem resolveCollision_separating_witness :
    resolveCollision (fun _ => 8)
      { mkBox 0 0 10 10 with velocity := ⟨-1, 0⟩ }
      { mkBox 8 0 10 10 with velocity := ⟨1, 0⟩ } =
      ({ mkBox 0 0 10 10 with velocity := ⟨-1, 0⟩ },
       { mkBox 8 0 10 10 with velocity := ⟨1, 0⟩ }) :=
  resolveCollision_separating (fun _ => 8) _ _
    (by norm_num [isColliding, mkBox])
    (by norm_num [relVelNormal, normalX, normalY, centerDx, centerDy, mkBox])

/-- C9: `setTimeScale(scale)` stores `max(0, scale)`: a negative argument is
clamped to zero by the setter itself, a non-negative one is stored unchanged,
and the stored `timeScale` is always non-negative. -/
theorem setTimeScale_clamps (e : PhysicsEngine) (scale : ℚ) :
    (setTimeScale e scale).timeScale = max 0 scale ∧
    (scale < 0 → (setTimeScale e scale).timeScale = 0) ∧
    (0 ≤ scale → (setTimeScale e scale).timeScale = scale) ∧
    0 ≤ (setTimeScale e scale).timeScale := by
  refine ⟨rfl, fun h => ?_, fun h => ?_, ?_⟩
  · simp [setTimeScale, max_eq_left h.le]
  · simp [setTimeScale, max_eq_right h]
  · simp [setTimeScale]

/-- C9 witness: a negative scale is stored as zero. -/
theorem setTimeScale_clamps_witness :
    (setTimeScale ⟨⟨0, 981/100⟩, 1, 3⟩ (-5)).timeScale = 0 :=
  (setTimeScale_clamps ⟨⟨0, 981/100⟩, 1, 3⟩ (-5)).2.1 (by norm_num)

/-- C10: the registry mutators are idempotent — removing an absent body is a
no-op and adding an already-present body leaves the registry unchanged — and
they preserve duplicate-freedom, so a member occurs at most once. -/
theorem registry_idempotent {α : Type} [DecidableEq α] (bodies : List α)
    (body : α) :
    (body ∉ bodies → removeBody bodies body = bodies) ∧
    (body ∈ bodies → addBody bodies body = bodies) ∧
    (bodies.Nodup → (addBody bodies body).Nodup) ∧
    (bodies.Nodup → (removeBody bodies body).Nodup) ∧
    (bodies.Nodup → ∀ a : α, (addBody bodies body).count a ≤ 1) := by
  refine ⟨fun h => List.erase_of_not_mem h, fun h => if_pos h,
    fun h => ?_, fun h => h.erase body, fun h a => ?_⟩
  · unfold addBody
    split
    · exact h
    · exact List.Nodup.append h (List.nodup_singleton body)
        (by simpa using fun hb => ‹body ∉ bodies› hb)
  · have hnd : (addBody bodies body).Nodup := by
      unfold addBody
      split
      · exact h
      · exact List.Nodup.append h (List.nodup_singleton body)
          (by simpa using fun hb => ‹body ∉ bodies› hb)
    exact List.nodup_iff_count_le_one.mp hnd a

/-- C10 witness: removing an absent body and re-adding a present one, on a
concrete registry. -/
theorem registry_idempotent_witness :
    removeBody [1, 2, 3] 4 = [1, 2, 3] ∧ addBody [1, 2, 3] 2 = [1, 2, 3] :=
  ⟨(registry_idempotent ([1, 2, 3] : List ℕ) 4).1 (by decide),
   (registry_idempotent ([1, 2, 3] : List ℕ) 2).2.1 (by decide)⟩
